import Mathlib

/-!
Verification of the multi-criteria scoring engine of `whereto` (src/main.go).

The Go program is embedded shallowly:

* Go `float64` arithmetic is modelled by `ℚ` (exact arithmetic) in the main
  model.  The only irrational operation, `math.Sqrt` inside gonum's
  `stat.MeanStdDev`, is passed in as an explicit function parameter `sq : ℚ → ℚ`
  together with, where a proof needs it, the hypothesis that `sq` behaves as a
  square root on the value at which it is applied.
* For the claims about IEEE special values (division by zero, NaN propagation)
  a second scalar model `F` is used: rationals extended with `+∞`, `-∞` and
  `NaN`, with the IEEE-754 propagation rules for `+ - * /` and `sqrt`
  (rounding and signed zero are not modelled; no claim depends on them).
* gonum's `stat.MeanStdDev(x, nil)` returns the mean `Σx/n` and the *sample*
  (Bessel-corrected) standard deviation `sqrt(Σ(x-μ)²/(n-1))`; its compensated
  summation is algebraically equal to this in exact arithmetic.
  `stat.MeanStdDev(x, w)` returns the weighted mean `Σ wᵢxᵢ / Σ wᵢ` as its
  first component (only the mean is used by `Print`).
* Go panics in `Merge` are modelled by `Except String`.
-/

/-! ## Data model (src/main.go lines 27–101) -/

structure HighSchool where
  Name : String
  URL : String
  USNews : ℤ
  MathProficiency : ℚ
  ReadingProficiency : ℚ
  GraduationRate : ℚ
  CollegeReadiness : ℚ
deriving Inhabited, DecidableEq

structure RealEstate where
  SampleURL : String
  MarketValue : ℤ
  AssessedValue : ℤ
deriving Inhabited, DecidableEq

structure Taxes where
  Property : ℚ
  Sales : ℚ
  Income : ℚ
deriving Inhabited, DecidableEq

structure Crime where
  Violent : ℚ
  Property : ℚ
deriving Inhabited, DecidableEq

structure Climate where
  SunnyDays : ℚ
  RainInches : ℚ
  SnowInches : ℚ
deriving Inhabited, DecidableEq

structure Family where
  MilesToMargaret : ℚ
  MilesToNich : ℚ
  MilesToPeggy : ℚ
  MilesToRyan : ℚ
  MultipleSuites : ℚ
deriving Inhabited, DecidableEq

structure Livability where
  Politics : ℚ
  Culture : ℚ
  Running : ℚ
  WalkScore : ℚ
  MilesToAirport : ℚ
deriving Inhabited, DecidableEq

structure City where
  Name : String
  Education : HighSchool
  RealEstate : RealEstate
  Taxes : Taxes
  Crime : Crime
  Climate : Climate
  Family : Family
  Livability : Livability
deriving Inhabited, DecidableEq

/-- A city with the given name and all-default attributes (test fixture). -/
def mkCity (n : String) : City := { (default : City) with Name := n }

/-- `type ScoreGoal int` with the constants `BIGGER` and `SMALLER`. -/
inductive ScoreGoal where
  | BIGGER : ScoreGoal
  | SMALLER : ScoreGoal
deriving Inhabited, DecidableEq

/-- `type ScoreSet struct` (line 87).  `scores *mat.Dense` is a rectangular
`rows × cols` matrix; it is modelled as the list of its rows plus the explicit
column dimension `numCols` (the `c` returned by `Dims()`).  Rectangularity of
the gonum matrix is the well-formedness predicate `ScoreSet.WF` below. -/
structure ScoreSet where
  columnNames : List String
  rowNames : List String
  rowWeights : List ℚ
  numCols : ℕ
  scores : List (List ℚ)
deriving Inhabited, DecidableEq

/-- States representable by the Go value: `mat.Dense` is rectangular with
`numCols` columns, and the three per-row lists have one entry per matrix row
and one column name per matrix column. -/
def ScoreSet.WF (s : ScoreSet) : Prop :=
  s.rowNames.length = s.scores.length ∧
  s.rowWeights.length = s.scores.length ∧
  s.columnNames.length = s.numCols ∧
  ∀ r ∈ s.scores, r.length = s.numCols

instance (s : ScoreSet) : Decidable s.WF := by
  unfold ScoreSet.WF; infer_instance

/-! ## Leaf construction (NewScoreSet, lines 103–127), exact-arithmetic model -/

/-- gonum `stat.Mean(x, nil)`: `Σx / len(x)`. -/
def listMean (xs : List ℚ) : ℚ := xs.sum / xs.length

/-- gonum unweighted *sample* variance: `Σ(x-μ)²/(n-1)` (Bessel-corrected;
gonum documents `StdDev` as the sample standard deviation). -/
def sampleVar (xs : List ℚ) : ℚ :=
  (xs.map (fun x => (x - listMean xs) ^ 2)).sum / ((xs.length : ℚ) - 1)

/-- gonum `stat.MeanStdDev(x, nil)` in exact arithmetic: the mean and
`sq` applied to the sample variance, where `sq` stands for `math.Sqrt`. -/
def meanStdDev (sq : ℚ → ℚ) (xs : List ℚ) : ℚ × ℚ :=
  (listMean xs, sq (sampleVar xs))

/-- `sq` agrees with the real square root at `x`. -/
def IsSqrtAt (sq : ℚ → ℚ) (x : ℚ) : Prop := 0 ≤ sq x ∧ sq x * sq x = x

/-- `func NewScoreSet(axis string, cities []City, better ScoreGoal, f ScoreFunc) *ScoreSet`
(lines 103–127): evaluate the extractor per city in order, z-score normalize
the row with mean and (sample) standard deviation, negate when the goal is
`SMALLER`; single row, weight 1.0, labelled by the axis. -/
def NewScoreSet (sq : ℚ → ℚ) (axis : String) (cities : List City)
    (better : ScoreGoal) (f : City → ℚ) : ScoreSet :=
  let row := cities.map f
  let ms := meanStdDev sq row
  let row2 := row.map (fun x =>
    let val := (x - ms.1) / ms.2
    if better = ScoreGoal.SMALLER then val * (-1) else val)
  { columnNames := cities.map (fun c => c.Name)
    rowNames := [axis]
    rowWeights := [1]
    numCols := cities.length
    scores := [row2] }

/-- Modelled from the spec: the *population* variance `Σ(x-μ)²/n` that the
spec's normalization description ("population mean and standard deviation")
prescribes.  Used only to compare the code's behaviour with the spec. -/
def specPopVariance (xs : List ℚ) : ℚ :=
  (xs.map (fun x => (x - listMean xs) ^ 2)).sum / (xs.length : ℚ)

/-! ## Merge (lines 181–236) -/

/-- The rescaled row weights of a merge (lines 203–210): every input row
weight is multiplied by its set's weight, or divided by the number of sets
when no weights were supplied. -/
def mergeRowWeights (sets : List ScoreSet) (weights : Option (List ℚ)) : List ℚ :=
  match weights with
  | none => (sets.map (fun s => s.rowWeights.map (fun rw => rw / (sets.length : ℚ)))).flatten
  | some w =>
      (List.zipWith (fun s wi => s.rowWeights.map (fun rw => rw * wi)) sets w).flatten

/-- The body of `Merge` after the weight checks (lines 198–235): take the
column names of the first set, fail (`panic("tnarg")`) when any set's matrix
column count differs from `len(columns)`, otherwise concatenate row names,
rescaled row weights and matrix rows in input order.  The Go loop reads
`sets[i].rowNames[j]` for each matrix row `j`, hence the `take`. -/
def mergeBody (sets : List ScoreSet) (weights : Option (List ℚ)) : Except String ScoreSet :=
  if sets.any (fun s => s.numCols ≠ (sets.headD default).columnNames.length) then
    Except.error "tnarg"
  else
    Except.ok
      { columnNames := (sets.headD default).columnNames
        rowNames := (sets.map (fun s => s.rowNames.take s.scores.length)).flatten
        rowWeights := mergeRowWeights sets weights
        numCols := (sets.headD default).columnNames.length
        scores := (sets.map (fun s => s.scores)).flatten }

/-- `func Merge(sets []*ScoreSet, weights []float64) *ScoreSet` (lines
181–236).  Panics are modelled as `Except.error`.  Checks in source order:
fewer than 2 sets; with explicit weights, a length mismatch and then a weight
sum different from exactly 1.0; then the per-set column-count check of
`mergeBody`. -/
def Merge (sets : List ScoreSet) (weights : Option (List ℚ)) : Except String ScoreSet :=
  if sets.length < 2 then
    Except.error "Merge must have 2 or more ScoreSets"
  else
    match weights with
    | some w =>
        if sets.length ≠ w.length then
          Except.error "merge sets/weights length must match"
        else if w.sum ≠ 1 then
          Except.error "merge weights must sum to 1.0"
        else mergeBody sets (some w)
    | none => mergeBody sets none

/-! ## Reporting (Print, lines 134–179): the final composite block -/

/-- gonum weighted mean `stat.Mean(x, w) = Σ wᵢ xᵢ / Σ wᵢ`, the first
component of `stat.MeanStdDev(col, rowWeights)` at line 165. -/
def weightedMean (xs ws : List ℚ) : ℚ :=
  (List.zipWith (fun wi xi => wi * xi) ws xs).sum / ws.sum

/-- `mat.Col(nil, j, set.scores)`: column `j` of the matrix. -/
def colOf (s : ScoreSet) (j : ℕ) : List ℚ :=
  s.scores.map (fun r => r.getD j 0)

/-- The unsorted composite list of `Print`'s final block (lines 160–169):
for each column `j`, the pair of the city name and
`100 * CDF(weightedMean(col j, rowWeights))`.  The standard normal CDF is an
external library function (`distuv.UnitNormal.CDF`) and is therefore an
opaque parameter `cdf`. -/
def finalScores (cdf : ℚ → ℚ) (s : ScoreSet) : List (String × ℚ) :=
  (List.range s.columnNames.length).map (fun j =>
    (s.columnNames.getD j "",
     100 * cdf (weightedMean (colOf s j) s.rowWeights)))

/-- Insert into a descending-sorted list (model of the `sort.Slice` comparator
`scored[i].Score > scored[j].Score`; `sort.Slice` is unstable, so any
descending-sorted permutation is a faithful model of the output order). -/
def insertDesc (x : String × ℚ) : List (String × ℚ) → List (String × ℚ)
  | [] => [x]
  | y :: ys => if y.2 ≤ x.2 then x :: y :: ys else y :: insertDesc x ys

/-- Sort a scored list by descending score. -/
def sortDesc : List (String × ℚ) → List (String × ℚ)
  | [] => []
  | x :: xs => insertDesc x (sortDesc xs)

/-- The ranked composite list printed by the final block of `Print`
(lines 160–177). -/
def finalRanked (cdf : ℚ → ℚ) (s : ScoreSet) : List (String × ℚ) :=
  sortDesc (finalScores cdf s)

/-- Scale every row weight by `c` (used to state weight-scaling invariance). -/
def scaleRowWeights (s : ScoreSet) (c : ℚ) : ScoreSet :=
  { s with rowWeights := s.rowWeights.map (fun w => c * w) }

/-! ## IEEE special-value model

For the claims about division by zero and NaN propagation the exact-rational
model is not faithful (Lean's `ℚ` defines `x / 0 = 0`, Go's `float64` gives
`NaN`/`±Inf`).  `F` is the set of rationals extended with the three IEEE-754
special values, with the IEEE propagation rules for the operations the code
uses (rounding and signed zero are not modelled; no claim depends on them). -/

inductive F where
  | fin : ℚ → F
  | pinf : F
  | ninf : F
  | nan : F
deriving Inhabited, DecidableEq, Repr

/-- IEEE negation. -/
def F.neg : F → F
  | F.fin a => F.fin (-a)
  | F.pinf => F.ninf
  | F.ninf => F.pinf
  | F.nan => F.nan

/-- IEEE addition (exact on finite values): NaN absorbs, `+∞ + -∞ = NaN`. -/
def F.add : F → F → F
  | F.nan, _ => F.nan
  | _, F.nan => F.nan
  | F.pinf, F.ninf => F.nan
  | F.ninf, F.pinf => F.nan
  | F.pinf, _ => F.pinf
  | _, F.pinf => F.pinf
  | F.ninf, _ => F.ninf
  | _, F.ninf => F.ninf
  | F.fin a, F.fin b => F.fin (a + b)

/-- IEEE subtraction: `x - y = x + (-y)` holds exactly for these values. -/
def F.sub (a b : F) : F := a.add b.neg

/-- IEEE multiplication: NaN absorbs, `±∞ * 0 = NaN`, signs otherwise. -/
def F.mul : F → F → F
  | F.nan, _ => F.nan
  | _, F.nan => F.nan
  | F.pinf, F.pinf => F.pinf
  | F.pinf, F.ninf => F.ninf
  | F.ninf, F.pinf => F.ninf
  | F.ninf, F.ninf => F.pinf
  | F.pinf, F.fin b => if 0 < b then F.pinf else if b < 0 then F.ninf else F.nan
  | F.fin a, F.pinf => if 0 < a then F.pinf else if a < 0 then F.ninf else F.nan
  | F.ninf, F.fin b => if 0 < b then F.ninf else if b < 0 then F.pinf else F.nan
  | F.fin a, F.ninf => if 0 < a then F.ninf else if a < 0 then F.pinf else F.nan
  | F.fin a, F.fin b => F.fin (a * b)

/-- IEEE division: NaN absorbs, `∞/∞ = NaN`, `0/0 = NaN`, `x/0 = ±∞` for
`x ≠ 0` (positive zero assumed), `x/∞ = 0`. -/
def F.div : F → F → F
  | F.nan, _ => F.nan
  | _, F.nan => F.nan
  | F.pinf, F.pinf => F.nan
  | F.pinf, F.ninf => F.nan
  | F.ninf, F.pinf => F.nan
  | F.ninf, F.ninf => F.nan
  | F.pinf, F.fin b => if 0 ≤ b then F.pinf else F.ninf
  | F.ninf, F.fin b => if 0 ≤ b then F.ninf else F.pinf
  | F.fin _, F.pinf => F.fin 0
  | F.fin _, F.ninf => F.fin 0
  | F.fin a, F.fin b =>
      if b = 0 then
        (if a = 0 then F.nan else if 0 < a then F.pinf else F.ninf)
      else F.fin (a / b)

/-- `floats.Sum`: a running left-to-right sum starting at 0. -/
def F.sum (l : List F) : F := l.foldl F.add (F.fin 0)

/-- `math.Sqrt` on `F`: NaN for NaN and negative arguments, `+∞ ↦ +∞`,
`0 ↦ 0` exactly; positive rationals delegate to the parameter `sq`. -/
def F.sqrtWith (sq : ℚ → ℚ) : F → F
  | F.nan => F.nan
  | F.pinf => F.pinf
  | F.ninf => F.nan
  | F.fin a => if a < 0 then F.nan else if a = 0 then F.fin 0 else F.fin (sq a)

/-- gonum `stat.MeanStdDev(x, nil)` over `F`: mean `Σx/n` and sample standard
deviation `sqrt(Σ(x-μ)²/(n-1))`.  In exact arithmetic gonum's compensated
summation reduces to this formula, and on NaN/all-equal inputs (the cases the
special-value claims are about) every summation variant propagates
identically. -/
def MeanStdDevF (sq : ℚ → ℚ) (xs : List F) : F × F :=
  let mean := (F.sum xs).div (F.fin (xs.length : ℚ))
  let ss := F.sum (xs.map (fun v => (v.sub mean).mul (v.sub mean)))
  let variance := ss.div (F.fin ((xs.length : ℚ) - 1))
  (mean, F.sqrtWith sq variance)

/-- `ScoreSet` with IEEE-special-value scalars. -/
structure ScoreSetF where
  columnNames : List String
  rowNames : List String
  rowWeights : List F
  numCols : ℕ
  scores : List (List F)
deriving Inhabited, DecidableEq

/-- `NewScoreSet` (lines 103–127) over the special-value scalar model `F`:
identical structure to `NewScoreSet` above, but every `float64` operation
follows the IEEE propagation rules.  The Go function performs no finiteness
check and returns unconditionally. -/
def NewScoreSetF (sq : ℚ → ℚ) (axis : String) (cities : List City)
    (better : ScoreGoal) (f : City → F) : ScoreSetF :=
  let row := cities.map f
  let ms := MeanStdDevF sq row
  let row2 := row.map (fun x =>
    let val := (x.sub ms.1).div ms.2
    if better = ScoreGoal.SMALLER then val.mul (F.fin (-1)) else val)
  { columnNames := cities.map (fun c => c.Name)
    rowNames := [axis]
    rowWeights := [F.fin 1]
    numCols := cities.length
    scores := [row2] }

/-! ## Test fixtures -/

/-- A square-root table for the values appearing in the concrete scenarios:
`sqrt 100 = 10` (and `sqrt 1 = 1`), as `math.Sqrt` computes exactly. -/
def exSq : ℚ → ℚ := fun x => if x = 100 then 10 else if x = 1 then 1 else 0

/-- Three cities A, B, C. -/
def exCities3 : List City := [mkCity "A", mkCity "B", mkCity "C"]

/-- An extractor giving the raw values 10, 20, 30 on `exCities3`. -/
def exRaw : City → ℚ :=
  fun c => if c.Name = "A" then 10 else if c.Name = "B" then 20 else 30

/-- Two cities A, B. -/
def exCities2 : List City := [mkCity "A", mkCity "B"]

/-- An `F`-valued extractor returning NaN on every city except A. -/
def exNanF : City → F := fun c => if c.Name = "A" then F.fin 1 else F.nan

/-! ## Helper lemmas -/

lemma sum_map_sub_const (v : List ℚ) (c : ℚ) :
    (v.map (fun x => x - c)).sum = v.sum - v.length * c := by
  induction v with
  | nil => simp
  | cons a l ih =>
      simp only [List.map_cons, List.sum_cons, ih, List.length_cons]
      push_cast
      ring

lemma sum_map_sub_mean (v : List ℚ) (hne : v ≠ []) :
    (v.map (fun x => x - listMean v)).sum = 0 := by
  have hn0 : v.length ≠ 0 := (List.length_pos.mpr hne).ne'
  have hn : (v.length : ℚ) ≠ 0 := by exact_mod_cast hn0
  rw [sum_map_sub_const, listMean]
  field_simp

lemma sampleVar_pos (v : List ℚ) (h2 : 2 ≤ v.length)
    (a b : ℚ) (ha : a ∈ v) (hb : b ∈ v) (hab : a ≠ b) :
    0 < sampleVar v := by
  have hc : ∃ c ∈ v, c ≠ listMean v := by
    by_contra h
    push_neg at h
    exact hab ((h a ha).trans (h b hb).symm)
  obtain ⟨c, hc, hcm⟩ := hc
  have hterm : 0 < (c - listMean v) ^ 2 :=
    pow_two_pos_of_ne_zero (sub_ne_zero.mpr hcm)
  have hle : (c - listMean v) ^ 2 ≤ (v.map (fun x => (x - listMean v) ^ 2)).sum := by
    refine List.single_le_sum (fun x hx => ?_) _ (List.mem_map_of_mem _ hc)
    obtain ⟨y, _, rfl⟩ := List.mem_map.mp hx
    positivity
  have hden : (0 : ℚ) < (v.length : ℚ) - 1 := by
    have : (2 : ℚ) ≤ (v.length : ℚ) := by exact_mod_cast h2
    linarith
  exact div_pos (lt_of_lt_of_le hterm hle) hden

/-- The z-score row `x ↦ (x - μ)/σ * t` (with `σ² = sampleVar v`, `t = ±1`)
has mean 0 and sample variance 1. -/
lemma normalizedRow_mean_var (v : List ℚ) (σ t : ℚ) (h2 : 2 ≤ v.length)
    (hσ : σ * σ = sampleVar v) (hσ0 : σ ≠ 0) (ht : t * t = 1) :
    listMean (v.map (fun x => (x - listMean v) / σ * t)) = 0 ∧
    sampleVar (v.map (fun x => (x - listMean v) / σ * t)) = 1 := by
  have hne : v ≠ [] := by
    intro h
    rw [h] at h2
    simp at h2
  have hlen : (v.map (fun x => (x - listMean v) / σ * t)).length = v.length := by
    simp
  have hsum0 : (v.map (fun x => (x - listMean v) / σ * t)).sum = 0 := by
    have : (v.map (fun x => (x - listMean v) / σ * t)) =
        (v.map (fun x => (x - listMean v) * (σ⁻¹ * t))) := by
      refine List.map_congr_left (fun x _ => ?_)
      field_simp
    rw [this]
    have := List.sum_map_mul_right v (fun x => x - listMean v) (σ⁻¹ * t)
    rw [this, sum_map_sub_mean v hne, zero_mul]
  have hmean0 : listMean (v.map (fun x => (x - listMean v) / σ * t)) = 0 := by
    rw [listMean, hsum0, zero_div]
  refine ⟨hmean0, ?_⟩
  have hden : (v.length : ℚ) - 1 ≠ 0 := by
    have h2q : (2 : ℚ) ≤ (v.length : ℚ) := by exact_mod_cast h2
    intro h
    rw [sub_eq_zero] at h
    rw [h] at h2q
    norm_num at h2q
  rw [sampleVar, hmean0, hlen]
  have hsq : ((v.map (fun x => (x - listMean v) / σ * t)).map (fun y => (y - 0) ^ 2)).sum
      = (v.map (fun x => (x - listMean v) ^ 2)).sum * (σ⁻¹ * σ⁻¹) := by
    rw [List.map_map]
    have hfun : ((fun y => (y - 0) ^ 2) ∘ (fun x => (x - listMean v) / σ * t)) =
        (fun x => (x - listMean v) ^ 2 * (σ⁻¹ * σ⁻¹)) := by
      funext x
      have ht2 : t ^ 2 = 1 := by
        rw [pow_two]
        exact ht
      simp only [Function.comp_apply, sub_zero, div_eq_mul_inv, mul_pow, ht2, mul_one, pow_two]
      linear_combination ((x - listMean v) * (x - listMean v) * (σ⁻¹ * σ⁻¹)) * ht
    rw [hfun]
    exact List.sum_map_mul_right v (fun x => (x - listMean v) ^ 2) (σ⁻¹ * σ⁻¹)
  rw [hsq]
  have hvar : (v.map (fun x => (x - listMean v) ^ 2)).sum
      = sampleVar v * ((v.length : ℚ) - 1) := by
    rw [sampleVar]
    field_simp
  rw [hvar, ← hσ]
  field_simp

/-- The single row stored by `NewScoreSet`, as one map with an explicit `±1`
goal factor. -/
lemma NewScoreSet_scores (sq : ℚ → ℚ) (axis : String) (cities : List City)
    (better : ScoreGoal) (f : City → ℚ) :
    (NewScoreSet sq axis cities better f).scores =
      [(cities.map f).map (fun x =>
        (x - listMean (cities.map f)) / sq (sampleVar (cities.map f)) *
          (if better = ScoreGoal.SMALLER then -1 else 1))] := by
  unfold NewScoreSet meanStdDev
  rcases better <;> simp

/-! ## Claim theorems -/

/-- C1 counterexample: for raw values `[10, 20, 30]` with goal `BIGGER` the
code stores `[-1, 0, 1]` (gonum's `MeanStdDev` is the *sample* standard
deviation, here 10), a row whose population variance is `2/3`, not 1; the
claimed population z-scores `≈ [-1.2247, 0, 1.2247]` are not what is
stored. -/
theorem C1_population_counterexample :
    (NewScoreSet exSq "/axis" exCities3 ScoreGoal.BIGGER exRaw).scores = [[-1, 0, 1]] ∧
    specPopVariance [-1, 0, 1] = 2 / 3 ∧ ((2 : ℚ) / 3) ≠ 1 := by
  refine ⟨?_, ?_, by norm_num⟩
  · simp [NewScoreSet, meanStdDev, listMean, sampleVar, exCities3, exRaw, mkCity, exSq]
    norm_num
  · simp [specPopVariance, listMean]
    norm_num

/-- C1 (amended): for every leaf ScoreSet built by `NewScoreSet` from at
least two alternatives with at least two distinct extractor values, the
stored row is the z-score normalization using the mean and the *sample*
(Bessel-corrected, n−1) standard deviation of the raw value vector, so the
resulting row has mean 0 and sample variance 1; in particular, for raw
values `[10, 20, 30]` the stored z-scores are exactly `[-1, 0, 1]`.
`sq` is `math.Sqrt`, assumed correct at the one value where it is called. -/
theorem C1_sample_normalization (sq : ℚ → ℚ) (axis : String) (cities : List City)
    (better : ScoreGoal) (f : City → ℚ)
    (h2 : 2 ≤ cities.length)
    (hd : ∃ c1 ∈ cities, ∃ c2 ∈ cities, f c1 ≠ f c2)
    (hsq : IsSqrtAt sq (sampleVar (cities.map f))) :
    listMean ((NewScoreSet sq axis cities better f).scores.flatten) = 0 ∧
    sampleVar ((NewScoreSet sq axis cities better f).scores.flatten) = 1 := by
  have h2v : 2 ≤ (cities.map f).length := by simpa using h2
  obtain ⟨c1, hc1, c2, hc2, hne⟩ := hd
  have hvpos : 0 < sampleVar (cities.map f) :=
    sampleVar_pos (cities.map f) h2v (f c1) (f c2)
      (List.mem_map_of_mem f hc1) (List.mem_map_of_mem f hc2) hne
  have hσ0 : sq (sampleVar (cities.map f)) ≠ 0 := by
    intro h
    have hs2 := hsq.2
    rw [h, zero_mul] at hs2
    exact absurd hs2.symm hvpos.ne'
  have ht : (if better = ScoreGoal.SMALLER then (-1 : ℚ) else 1) *
      (if better = ScoreGoal.SMALLER then (-1 : ℚ) else 1) = 1 := by
    rcases better <;> simp
  have hmain := normalizedRow_mean_var (cities.map f) (sq (sampleVar (cities.map f)))
    (if better = ScoreGoal.SMALLER then (-1 : ℚ) else 1) h2v hsq.2 hσ0 ht
  rw [NewScoreSet_scores]
  simpa using hmain

/-- C1 witness: the amended claim at the concrete scenario `[10, 20, 30]`. -/
theorem C1_sample_normalization_witness :
    listMean ((NewScoreSet exSq "/axis" exCities3 ScoreGoal.BIGGER exRaw).scores.flatten) = 0 ∧
    sampleVar ((NewScoreSet exSq "/axis" exCities3 ScoreGoal.BIGGER exRaw).scores.flatten) = 1 := by
  refine C1_sample_normalization exSq "/axis" exCities3 ScoreGoal.BIGGER exRaw ?_ ?_ ?_
  · norm_num [exCities3]
  · exact ⟨mkCity "A", by simp [exCities3], mkCity "B", by simp [exCities3],
      by simp [exRaw, mkCity]⟩
  · have hv : List.map exRaw exCities3 = [10, 20, 30] := by
      simp [exCities3, exRaw, mkCity]
    have h100 : sampleVar (List.map exRaw exCities3) = 100 := by
      rw [hv]
      simp [sampleVar, listMean]
      norm_num
    rw [h100]
    exact ⟨by norm_num [exSq], by norm_num [exSq]⟩

/-- C9: with at least two distinct raw values, building the leaf with goal
`SMALLER` yields the row that is the entrywise negation of the row built
with goal `BIGGER`. -/
theorem C9_goal_negation (sq : ℚ → ℚ) (axis : String) (cities : List City) (f : City → ℚ)
    (hd : ∃ c1 ∈ cities, ∃ c2 ∈ cities, f c1 ≠ f c2) :
    (NewScoreSet sq axis cities ScoreGoal.SMALLER f).scores =
      (NewScoreSet sq axis cities ScoreGoal.BIGGER f).scores.map
        (fun r => r.map (fun z => -z)) := by
  rw [NewScoreSet_scores, NewScoreSet_scores]
  simp [List.map_map]

/-- C9 witness: the negation relation at the concrete scenario. -/
theorem C9_goal_negation_witness :
    (NewScoreSet exSq "/axis" exCities3 ScoreGoal.SMALLER exRaw).scores =
      (NewScoreSet exSq "/axis" exCities3 ScoreGoal.BIGGER exRaw).scores.map
        (fun r => r.map (fun z => -z)) :=
  C9_goal_negation exSq "/axis" exCities3 exRaw
    ⟨mkCity "A", by simp [exCities3], mkCity "B", by simp [exCities3],
      by simp [exRaw, mkCity]⟩

/-! ## Merge claims -/

/-- Merge fixtures: two single-row sets over the same two alternatives in
different column orders, a one-column set, and single-row one-column sets
with row weights 2 and 1. -/
def exAB : ScoreSet :=
  { columnNames := ["A", "B"], rowNames := ["r1"], rowWeights := [1],
    numCols := 2, scores := [[1, 2]] }

def exBA : ScoreSet :=
  { columnNames := ["B", "A"], rowNames := ["r2"], rowWeights := [1],
    numCols := 2, scores := [[3, 4]] }

def exXY : ScoreSet :=
  { columnNames := ["X", "Y"], rowNames := ["p"], rowWeights := [1],
    numCols := 2, scores := [[5, 6]] }

def exYX : ScoreSet :=
  { columnNames := ["Y", "X"], rowNames := ["q"], rowWeights := [1],
    numCols := 2, scores := [[7, 8]] }

def exOneCol : ScoreSet :=
  { columnNames := ["A"], rowNames := ["r1"], rowWeights := [1],
    numCols := 1, scores := [[1]] }

def exW2 : ScoreSet :=
  { columnNames := ["A"], rowNames := ["r1"], rowWeights := [2],
    numCols := 1, scores := [[0]] }

def exW1 : ScoreSet :=
  { columnNames := ["A"], rowNames := ["r1"], rowWeights := [1],
    numCols := 1, scores := [[0]] }

/-- The merged set of the `[0.7, 0.3]` scenario. -/
def exMerged73 : ScoreSet :=
  { columnNames := ["A"], rowNames := ["r1", "r1"], rowWeights := [7/10, 3/10],
    numCols := 1, scores := [[0], [0]] }

/-- If `Merge` returns a set, all the up-front checks passed and the result
came from `mergeBody`. -/
lemma Merge_ok_elim (sets : List ScoreSet) (weights : Option (List ℚ)) (out : ScoreSet)
    (h : Merge sets weights = Except.ok out) :
    mergeBody sets weights = Except.ok out ∧ 2 ≤ sets.length ∧
      ∀ w, weights = some w → sets.length = w.length ∧ w.sum = 1 := by
  unfold Merge at h
  by_cases h1 : sets.length < 2
  · rw [if_pos h1] at h
    simp at h
  · rw [if_neg h1] at h
    rcases weights with _ | w
    · exact ⟨h, Nat.not_lt.mp h1, fun w hw => by simp at hw⟩
    · have h' : (if sets.length ≠ w.length then
            (Except.error "merge sets/weights length must match" : Except String ScoreSet)
          else if w.sum ≠ 1 then Except.error "merge weights must sum to 1.0"
          else mergeBody sets (some w)) = Except.ok out := h
      by_cases h2 : sets.length ≠ w.length
      · rw [if_pos h2] at h'
        simp at h'
      · rw [if_neg h2] at h'
        by_cases h3 : w.sum ≠ 1
        · rw [if_pos h3] at h'
          simp at h'
        · rw [if_neg h3] at h'
          push_neg at h2 h3
          refine ⟨h', Nat.not_lt.mp h1, fun w' hw' => ?_⟩
          obtain rfl : w = w' := Option.some.inj hw'
          exact ⟨h2, h3⟩

/-- The set built by a successful `mergeBody`, field by field. -/
lemma mergeBody_ok_elim (sets : List ScoreSet) (weights : Option (List ℚ)) (out : ScoreSet)
    (h : mergeBody sets weights = Except.ok out) :
    out =
      { columnNames := (sets.headD default).columnNames
        rowNames := (sets.map (fun s => s.rowNames.take s.scores.length)).flatten
        rowWeights := mergeRowWeights sets weights
        numCols := (sets.headD default).columnNames.length
        scores := (sets.map (fun s => s.scores)).flatten } := by
  unfold mergeBody at h
  split at h
  · simp at h
  · exact (Except.ok.inj h).symm

/-- C3: a valid merge concatenates labels and matrix rows in input order with
the z-score values copied unchanged, keeps the columns, and rescales each
input row weight by the set weight (explicit weights) or by `1/len(sets)`
(nil weights). -/
theorem C3_merge_concat (sets : List ScoreSet) (weights : Option (List ℚ)) (out : ScoreSet)
    (hwf : ∀ s ∈ sets, s.WF)
    (hcols : ∀ s ∈ sets, s.columnNames = (sets.headD default).columnNames)
    (hok : Merge sets weights = Except.ok out) :
    out.columnNames = (sets.headD default).columnNames ∧
    out.rowNames = (sets.map (fun s => s.rowNames)).flatten ∧
    out.scores = (sets.map (fun s => s.scores)).flatten ∧
    (∀ w, weights = some w →
      out.rowWeights =
        (List.zipWith (fun s wi => s.rowWeights.map (fun rw => rw * wi)) sets w).flatten) ∧
    (weights = none →
      out.rowWeights =
        (sets.map (fun s => s.rowWeights.map (fun rw => rw / (sets.length : ℚ)))).flatten) := by
  obtain ⟨hbody, -, -⟩ := Merge_ok_elim sets weights out hok
  have hout := mergeBody_ok_elim sets weights out hbody
  rw [hout]
  refine ⟨rfl, ?_, rfl, ?_, ?_⟩
  · show (sets.map (fun s => s.rowNames.take s.scores.length)).flatten
        = (sets.map (fun s => s.rowNames)).flatten
    congr 1
    refine List.map_congr_left (fun s hs => ?_)
    rw [← (hwf s hs).1, List.take_length]
  · intro w hw
    rw [hw]
    rfl
  · intro hw
    rw [hw]
    rfl

/-- C3 witness: an equal-split merge of two concrete single-row sets. -/
theorem C3_merge_concat_witness :
    (Except.ok
        { columnNames := ["A", "B"], rowNames := ["r1", "r1"], rowWeights := [1/2, 1/2],
          numCols := 2, scores := [[1, 2], [1, 2]] } : Except String ScoreSet).map
      ScoreSet.rowNames = Except.ok (([exAB, exAB].map (fun s => s.rowNames)).flatten) := by
  have hok : Merge [exAB, exAB] none = Except.ok
      { columnNames := ["A", "B"], rowNames := ["r1", "r1"], rowWeights := [1/2, 1/2],
        numCols := 2, scores := [[1, 2], [1, 2]] } := by
    simp [Merge, mergeBody, mergeRowWeights, exAB]
  have h := C3_merge_concat [exAB, exAB] none _
    (by intro s hs; simp [exAB] at hs; subst hs; exact (by decide : exAB.WF))
    (by intro s hs; simp [exAB] at hs; subst hs; rfl)
    hok
  simp only [Except.map]
  rw [← h.2.1]

/-- Summing the rescaled weights of an explicit-weight merge: when every
input's row weights sum to 1, the flattened rescaled weights sum to the sum
of the set weights. -/
lemma sum_flatten_scaled (sets : List ScoreSet) (w : List ℚ)
    (hlen : sets.length = w.length)
    (hsum1 : ∀ s ∈ sets, s.rowWeights.sum = 1) :
    ((List.zipWith (fun s wi => s.rowWeights.map (fun rw => rw * wi)) sets w).flatten).sum
      = w.sum := by
  induction sets generalizing w with
  | nil =>
      cases w with
      | nil => simp
      | cons wi ws => simp at hlen
  | cons s ss ih =>
      cases w with
      | nil => simp at hlen
      | cons wi ws =>
          simp only [List.zipWith_cons_cons, List.flatten_cons, List.sum_append, List.sum_cons]
          have h1 : (s.rowWeights.map (fun rw => rw * wi)).sum = wi := by
            have hmr : (s.rowWeights.map (fun rw => rw * wi)).sum = s.rowWeights.sum * wi := by
              simpa using List.sum_map_mul_right s.rowWeights id wi
            rw [hmr, hsum1 s (List.mem_cons_self s ss), one_mul]
          rw [h1, ih ws (by simpa using hlen)
            (fun t ht => hsum1 t (List.mem_cons_of_mem _ ht))]

/-- C4 counterexample: merging two sets whose row weights sum to 2 each,
under explicit weights `[1/2, 1/2]` (sum 1), yields output row weights
summing to 2, not to the sum of the supplied weights. -/
theorem C4_sum_counterexample :
    (Merge [exW2, exW2] (some [1/2, 1/2])).toOption.map (fun o => o.rowWeights.sum)
      = some 2 ∧
    ([1/2, 1/2] : List ℚ).sum = 1 ∧ (2 : ℚ) ≠ 1 := by
  refine ⟨?_, by norm_num, by norm_num⟩
  simp [Merge, mergeBody, mergeRowWeights, exW2, Except.toOption]
  norm_num

/-- C4 (amended): for a successful explicit-weight merge whose input sets
each have row weights summing to 1, the output row weights sum to the sum of
the supplied weights (in general the output sum is the weighted sum of the
inputs' row-weight totals). -/
theorem C4_weight_sum (sets : List ScoreSet) (w : List ℚ) (out : ScoreSet)
    (hok : Merge sets (some w) = Except.ok out)
    (hsum1 : ∀ s ∈ sets, s.rowWeights.sum = 1) :
    out.rowWeights.sum = w.sum := by
  obtain ⟨hbody, -, hw⟩ := Merge_ok_elim sets (some w) out hok
  obtain ⟨hlen, -⟩ := hw w rfl
  have hout := mergeBody_ok_elim sets (some w) out hbody
  rw [hout]
  exact sum_flatten_scaled sets w hlen hsum1

/-- C4 witness: the `[0.7, 0.3]` merge scenario of the spec. -/
theorem C4_weight_sum_witness : exMerged73.rowWeights.sum = ([7/10, 3/10] : List ℚ).sum := by
  refine C4_weight_sum [exW1, exW1] [7/10, 3/10] exMerged73 ?_ ?_
  · simp [Merge, mergeBody, mergeRowWeights, exW1, exMerged73]
    norm_num
  · intro s hs
    simp only [List.mem_cons, List.not_mem_nil, or_false] at hs
    rcases hs with rfl | rfl <;> simp [exW1]

/-- C2 counterexample: two well-formed sets over the same two alternatives in
different column orders merge without any error, producing a set whose rows
come from both inputs unchanged under the first input's column names (silent
misalignment), contradicting the claim that this fails. -/
theorem C2_reorder_counterexample :
    Merge [exAB, exBA] none = Except.ok
      { columnNames := ["A", "B"], rowNames := ["r1", "r2"], rowWeights := [1/2, 1/2],
        numCols := 2, scores := [[1, 2], [3, 4]] } ∧
    exAB.columnNames ≠ exBA.columnNames := by
  constructor
  · simp [Merge, mergeBody, mergeRowWeights, exAB, exBA]
  · simp [exAB, exBA]

/-- C2 (amended): `Merge` validates only the column *count*: any two
well-formed sets whose matrices have the same number of columns merge
successfully, whatever their column names or order; name or order mismatches
are never detected. -/
theorem C2_count_only_check (s1 s2 : ScoreSet) (h1 : s1.WF) (h2 : s2.WF)
    (hc : s2.numCols = s1.numCols) :
    (Merge [s1, s2] none).isOk = true := by
  have hlen : s1.columnNames.length = s1.numCols := h1.2.2.1
  simp [Merge, mergeBody, hlen, hc, Except.isOk, Except.toBool]

/-- C2 witness: the amended claim at two concrete sets with reversed column
names. -/
theorem C2_count_only_check_witness : (Merge [exXY, exYX] none).isOk = true :=
  C2_count_only_check exXY exYX (by decide) (by decide) (by decide)

/-- C6 counterexample: a merge of two sets with differing column counts and
nil weights fails, although none of the three claimed conditions (fewer than
2 sets, weight length mismatch, weight sum not 1) holds — the claimed list of
failure cases is not exhaustive. -/
theorem C6_exactly_counterexample :
    Merge [exOneCol, exAB] none = Except.error "tnarg" ∧
    [exOneCol, exAB].length = 2 := by
  constructor
  · simp [Merge, mergeBody, exOneCol, exAB]
  · rfl

/-- `mergeBody` fails exactly when some set's matrix column count differs
from the first set's column-name count. -/
lemma mergeBody_error_iff (sets : List ScoreSet) (weights : Option (List ℚ)) :
    (∃ e, mergeBody sets weights = Except.error e) ↔
      ∃ s ∈ sets, s.numCols ≠ (sets.headD default).columnNames.length := by
  unfold mergeBody
  by_cases hP : ∃ s ∈ sets, s.numCols ≠ (sets.headD default).columnNames.length
  · have hb : (sets.any fun s =>
        decide (s.numCols ≠ (sets.headD default).columnNames.length)) = true := by
      rw [List.any_eq_true]
      obtain ⟨s, hs, hne⟩ := hP
      exact ⟨s, hs, by simpa using hne⟩
    rw [if_pos hb]
    exact iff_of_true ⟨"tnarg", rfl⟩ hP
  · have hb : (sets.any fun s =>
        decide (s.numCols ≠ (sets.headD default).columnNames.length)) = false := by
      rw [List.any_eq_false]
      intro s hs
      simp only [decide_eq_true_eq]
      push_neg at hP
      simpa using hP s hs
    rw [if_neg (by rw [hb]; simp)]
    exact iff_of_false (fun h => by obtain ⟨e, he⟩ := h; simp at he) hP

/-- C6 (amended): `Merge` fails, returning an error and no ScoreSet, exactly
when one of these holds: fewer than 2 input sets; an explicit weight vector
whose length differs from the number of sets; an explicit weight vector whose
entries do not sum to exactly 1.0 (exact equality, no tolerance); or some
input's matrix column count differs from the first input's column-name count.
The three weight checks run before the output is assembled. -/
theorem C6_failure_iff (sets : List ScoreSet) (weights : Option (List ℚ)) :
    (∃ e, Merge sets weights = Except.error e) ↔
      (sets.length < 2 ∨
        (∃ w, weights = some w ∧ (sets.length ≠ w.length ∨ w.sum ≠ 1)) ∨
        (∃ s ∈ sets, s.numCols ≠ (sets.headD default).columnNames.length)) := by
  rcases weights with _ | w
  · by_cases h1 : sets.length < 2
    · simp [Merge, h1]
    · have heq : Merge sets none = mergeBody sets none := by
        unfold Merge
        rw [if_neg h1]
      rw [heq, mergeBody_error_iff]
      simp [h1]
  · by_cases h1 : sets.length < 2
    · simp [Merge, h1]
    · by_cases h2 : sets.length ≠ w.length
      · simp [Merge, h1, h2]
      · by_cases h3 : w.sum ≠ 1
        · simp [Merge, h1, h2, h3]
        · have heq : Merge sets (some w) = mergeBody sets (some w) := by
            have hnf : Merge sets (some w) =
                (if sets.length < 2 then
                  (Except.error "Merge must have 2 or more ScoreSets" : Except String ScoreSet)
                else if sets.length ≠ w.length then
                  Except.error "merge sets/weights length must match"
                else if w.sum ≠ 1 then Except.error "merge weights must sum to 1.0"
                else mergeBody sets (some w)) := rfl
            rw [hnf, if_neg h1, if_neg h2, if_neg h3]
          rw [heq, mergeBody_error_iff]
          simp [h1, h2, h3]

/-- C6 witness: the spec's failure scenario, weights `[0.5, 0.4]` (sum 0.9),
fails with a configuration error. -/
theorem C6_failure_iff_witness :
    ∃ e, Merge [exAB, exBA] (some [1/2, 2/5]) = Except.error e := by
  refine (C6_failure_iff [exAB, exBA] (some [1/2, 2/5])).mpr ?_
  refine Or.inr (Or.inl ⟨[1/2, 2/5], rfl, Or.inr ?_⟩)
  norm_num

/-! ## Reporting claims -/

/-- A two-row fixture for the reporting claims. -/
def exTwoRows : ScoreSet :=
  { columnNames := ["A", "B"], rowNames := ["r1", "r2"], rowWeights := [1/2, 1/2],
    numCols := 2, scores := [[1, -1], [-1, 1]] }

lemma insertDesc_perm (x : String × ℚ) (l : List (String × ℚ)) :
    List.Perm (insertDesc x l) (x :: l) := by
  induction l with
  | nil => simp [insertDesc]
  | cons y ys ih =>
      by_cases h : y.2 ≤ x.2
      · simp [insertDesc, h]
      · rw [insertDesc, if_neg h]
        exact (ih.cons y).trans (List.Perm.swap x y ys)

lemma sortDesc_perm (l : List (String × ℚ)) : List.Perm (sortDesc l) l := by
  induction l with
  | nil => simp [sortDesc]
  | cons x xs ih => exact (insertDesc_perm x (sortDesc xs)).trans (ih.cons x)

lemma insertDesc_sorted (x : String × ℚ) (l : List (String × ℚ))
    (hl : List.Sorted (fun a b : String × ℚ => b.2 ≤ a.2) l) :
    List.Sorted (fun a b : String × ℚ => b.2 ≤ a.2) (insertDesc x l) := by
  induction l with
  | nil => simp [insertDesc]
  | cons y ys ih =>
      obtain ⟨hy, hys⟩ := List.sorted_cons.mp hl
      by_cases h : y.2 ≤ x.2
      · rw [insertDesc, if_pos h]
        refine List.sorted_cons.mpr ⟨?_, hl⟩
        intro b hb
        rcases List.mem_cons.mp hb with rfl | hmem
        · exact h
        · exact (hy b hmem).trans h
      · rw [insertDesc, if_neg h]
        refine List.sorted_cons.mpr ⟨?_, ih hys⟩
        intro b hb
        rcases List.mem_cons.mp ((insertDesc_perm x ys).mem_iff.mp hb) with rfl | hmem
        · exact le_of_lt (not_le.mp h)
        · exact hy b hmem

lemma sortDesc_sorted (l : List (String × ℚ)) :
    List.Sorted (fun a b : String × ℚ => b.2 ≤ a.2) (sortDesc l) := by
  induction l with
  | nil => simp [sortDesc]
  | cons x xs ih => exact insertDesc_sorted x (sortDesc xs) ih

/-- C5: the composite score of each alternative is the row-weight-weighted
mean of its column's z-scores mapped through `100 * cdf`, and the printed
final list is a descending-sorted permutation of those (name, percentile)
pairs. -/
theorem C5_composite_ranking (cdf : ℚ → ℚ) (s : ScoreSet) :
    List.Perm (finalRanked cdf s) (finalScores cdf s) ∧
    List.Sorted (fun a b : String × ℚ => b.2 ≤ a.2) (finalRanked cdf s) ∧
    ∀ j, j < s.columnNames.length →
      (finalScores cdf s).getD j ("", 0) =
        (s.columnNames.getD j "",
         100 * cdf (weightedMean (colOf s j) s.rowWeights)) := by
  refine ⟨sortDesc_perm _, sortDesc_sorted _, fun j hj => ?_⟩
  rw [finalScores, List.getD_eq_getElem?_getD, List.getElem?_map, List.getElem?_range hj]
  rfl

/-- C5 witness: the composite ranking properties at a concrete two-row set
with the identity in place of the CDF. -/
theorem C5_composite_ranking_witness :
    List.Perm (finalRanked (fun z => z) exTwoRows) (finalScores (fun z => z) exTwoRows) ∧
    List.Sorted (fun a b : String × ℚ => b.2 ≤ a.2) (finalRanked (fun z => z) exTwoRows) ∧
    (finalScores (fun z => z) exTwoRows).getD 0 ("", 0) =
      (exTwoRows.columnNames.getD 0 "",
       100 * weightedMean (colOf exTwoRows 0) exTwoRows.rowWeights) := by
  obtain ⟨hp, hs, hj⟩ := C5_composite_ranking (fun z => z) exTwoRows
  exact ⟨hp, hs, hj 0 (by norm_num [exTwoRows])⟩

/-- Scaling every weight by a nonzero constant leaves the gonum weighted mean
unchanged. -/
lemma weightedMean_smul (xs ws : List ℚ) (c : ℚ) (hc : c ≠ 0) :
    weightedMean xs (ws.map (fun w => c * w)) = weightedMean xs ws := by
  unfold weightedMean
  have h1 : List.zipWith (fun wi xi => wi * xi) (ws.map (fun w => c * w)) xs
      = (List.zipWith (fun wi xi => wi * xi) ws xs).map (fun y => c * y) := by
    rw [List.zipWith_map_left, List.map_zipWith]
    congr 1
    funext a b
    ring
  have h2 : ((List.zipWith (fun wi xi => wi * xi) ws xs).map (fun y => c * y)).sum
      = c * (List.zipWith (fun wi xi => wi * xi) ws xs).sum := by
    simpa using List.sum_map_mul_left (List.zipWith (fun wi xi => wi * xi) ws xs) id c
  have h3 : (ws.map (fun w => c * w)).sum = c * ws.sum := by
    simpa using List.sum_map_mul_left ws id c
  rw [h1, h2, h3, mul_div_mul_left _ _ hc]

/-- C10: multiplying all row weights of a set by the same positive constant
changes neither the per-alternative composite percentiles nor the printed
ranking, because the composite weighted mean is normalized by the total
weight. -/
theorem C10_weight_scaling (cdf : ℚ → ℚ) (s : ScoreSet) (c : ℚ)
    (hc : 0 < c) (hw : ∀ w ∈ s.rowWeights, 0 < w) (hne : s.rowWeights ≠ []) :
    finalScores cdf (scaleRowWeights s c) = finalScores cdf s ∧
    finalRanked cdf (scaleRowWeights s c) = finalRanked cdf s := by
  have hfs : finalScores cdf (scaleRowWeights s c) = finalScores cdf s := by
    unfold finalScores scaleRowWeights colOf
    refine List.map_congr_left (fun j hj => ?_)
    congr 3
    exact weightedMean_smul _ _ c hc.ne'
  exact ⟨hfs, by unfold finalRanked; rw [hfs]⟩

/-- C10 witness: weight scaling by 3 at a concrete two-row set with positive
weights. -/
theorem C10_weight_scaling_witness :
    finalScores (fun z => z) (scaleRowWeights exTwoRows 3) = finalScores (fun z => z) exTwoRows ∧
    finalRanked (fun z => z) (scaleRowWeights exTwoRows 3) = finalRanked (fun z => z) exTwoRows := by
  refine C10_weight_scaling (fun z => z) exTwoRows 3 (by norm_num) ?_ ?_
  · intro w hw
    simp only [exTwoRows, List.mem_cons, List.not_mem_nil, or_false] at hw
    rcases hw with rfl | rfl <;> norm_num
  · simp [exTwoRows]

/-! ## Special-value claims (zero variance and NaN propagation) -/

lemma F.add_nan_left (x : F) : F.add F.nan x = F.nan := by cases x <;> rfl

lemma F.add_nan_right (x : F) : F.add x F.nan = F.nan := by cases x <;> rfl

lemma F.sub_nan_left (x : F) : F.sub F.nan x = F.nan := by cases x <;> rfl

lemma F.sub_nan_right (x : F) : F.sub x F.nan = F.nan := by cases x <;> rfl

lemma F.mul_nan_left (x : F) : F.mul F.nan x = F.nan := by cases x <;> rfl

lemma F.div_nan_left (x : F) : F.div F.nan x = F.nan := by cases x <;> rfl

lemma F.div_nan_right (x : F) : F.div x F.nan = F.nan := by cases x <;> rfl

lemma F.foldl_add_nan (l : List F) : l.foldl F.add F.nan = F.nan := by
  induction l with
  | nil => rfl
  | cons a l ih =>
      rw [List.foldl_cons, F.add_nan_left]
      exact ih

lemma F.foldl_add_of_mem_nan (l : List F) (acc : F) (h : F.nan ∈ l) :
    l.foldl F.add acc = F.nan := by
  induction l generalizing acc with
  | nil => simp at h
  | cons a l ih =>
      rw [List.foldl_cons]
      rcases List.mem_cons.mp h with rfl | hmem
      · rw [F.add_nan_right]
        exact F.foldl_add_nan l
      · exact ih _ hmem

lemma F.sum_eq_nan_of_mem (l : List F) (h : F.nan ∈ l) : F.sum l = F.nan :=
  F.foldl_add_of_mem_nan l (F.fin 0) h

lemma F.foldl_add_fin_replicate (n : ℕ) (q acc : ℚ) :
    (List.replicate n (F.fin q)).foldl F.add (F.fin acc) = F.fin (acc + n * q) := by
  induction n generalizing acc with
  | zero => simp
  | succ n ih =>
      rw [List.replicate_succ, List.foldl_cons]
      show (List.replicate n (F.fin q)).foldl F.add (F.fin (acc + q)) = _
      rw [ih]
      congr 1
      push_cast
      ring

lemma F.sum_replicate_fin (n : ℕ) (q : ℚ) :
    F.sum (List.replicate n (F.fin q)) = F.fin (n * q) := by
  have h := F.foldl_add_fin_replicate n q 0
  rw [zero_add] at h
  exact h

/-- The stored row of `NewScoreSetF`, written out. -/
lemma NewScoreSetF_scores (sq : ℚ → ℚ) (axis : String) (cities : List City)
    (better : ScoreGoal) (f : City → F) :
    (NewScoreSetF sq axis cities better f).scores =
      [(cities.map f).map (fun x =>
        let val := (x.sub (MeanStdDevF sq (cities.map f)).1).div
          (MeanStdDevF sq (cities.map f)).2
        if better = ScoreGoal.SMALLER then val.mul (F.fin (-1)) else val)] := rfl

lemma MeanStdDevF_fst (sq : ℚ → ℚ) (xs : List F) :
    (MeanStdDevF sq xs).1 = (F.sum xs).div (F.fin (xs.length : ℚ)) := rfl

lemma MeanStdDevF_snd (sq : ℚ → ℚ) (xs : List F) :
    (MeanStdDevF sq xs).2 =
      F.sqrtWith sq ((F.sum (xs.map (fun v =>
        (v.sub ((F.sum xs).div (F.fin (xs.length : ℚ)))).mul
          (v.sub ((F.sum xs).div (F.fin (xs.length : ℚ))))))).div
        (F.fin ((xs.length : ℚ) - 1))) := rfl

/-- `MeanStdDevF` on a constant finite vector: mean is the constant; the
standard deviation is `0` for `n ≥ 2` and NaN for `n = 1` (`0/0` in the
Bessel divisor). -/
lemma MeanStdDevF_replicate (sq : ℚ → ℚ) (n : ℕ) (q : ℚ) (hn : n ≠ 0) :
    MeanStdDevF sq (List.replicate n (F.fin q)) =
      (F.fin q, if (n : ℚ) - 1 = 0 then F.nan else F.fin 0) := by
  have hnq : (n : ℚ) ≠ 0 := by exact_mod_cast hn
  have hmean' : (F.sum (List.replicate n (F.fin q))).div
      (F.fin ((List.replicate n (F.fin q)).length : ℚ)) = F.fin q := by
    rw [F.sum_replicate_fin, List.length_replicate]
    show (if (n : ℚ) = 0 then _ else F.fin ((↑n * q) / ↑n)) = F.fin q
    rw [if_neg hnq, mul_div_cancel_left₀ q hnq]
  have hmean : (MeanStdDevF sq (List.replicate n (F.fin q))).1 = F.fin q :=
    (MeanStdDevF_fst sq _).trans hmean'
  have hsub : (F.fin q).sub (F.fin q) = F.fin 0 := by
    show F.fin (q + -q) = F.fin 0
    rw [add_neg_cancel]
  have hσ : (MeanStdDevF sq (List.replicate n (F.fin q))).2 =
      (if (n : ℚ) - 1 = 0 then F.nan else F.fin 0) := by
    rw [MeanStdDevF_snd, hmean']
    have hss : (List.replicate n (F.fin q)).map
        (fun v => (v.sub (F.fin q)).mul (v.sub (F.fin q)))
        = List.replicate n (F.fin 0) := by
      rw [List.map_replicate, hsub]
      show List.replicate n (F.fin (0 * 0)) = _
      norm_num
    rw [hss, F.sum_replicate_fin, mul_zero, List.length_replicate]
    by_cases h1 : (n : ℚ) - 1 = 0
    · rw [if_pos h1, h1]
      rfl
    · rw [if_neg h1]
      show F.sqrtWith sq (if ((n : ℚ) - 1) = 0 then _ else F.fin (0 / ((n : ℚ) - 1))) = F.fin 0
      rw [if_neg h1, zero_div]
      rfl
  exact Prod.ext hmean hσ

/-- C7 (amended): when all raw extractor values are identical the standard
deviation is 0 and `NewScoreSet` divides by it without any check, storing
NaN (`0/0`) in every matrix entry; there is no all-zero "no discriminating
signal" policy. -/
theorem C7_zero_variance_nan (sq : ℚ → ℚ) (axis : String) (cities : List City)
    (better : ScoreGoal) (f : City → F) (q : ℚ)
    (hne : cities ≠ []) (hconst : ∀ c ∈ cities, f c = F.fin q) :
    (NewScoreSetF sq axis cities better f).scores =
      [List.replicate cities.length F.nan] := by
  have hn : cities.length ≠ 0 := by simpa using (List.length_pos.mpr hne).ne'
  have hrow : cities.map f = List.replicate cities.length (F.fin q) := by
    have h1 : cities.map f = cities.map (fun _ => F.fin q) :=
      List.map_congr_left (fun c hc => hconst c hc)
    rw [h1, List.map_const']
  have hsub : (F.fin q).sub (F.fin q) = F.fin 0 := by
    show F.fin (q + -q) = F.fin 0
    rw [add_neg_cancel]
  have hval : ((F.fin q).sub (F.fin q)).div
      (if ((cities.length : ℚ)) - 1 = 0 then F.nan else F.fin 0) = F.nan := by
    rw [hsub]
    by_cases h1 : ((cities.length : ℚ)) - 1 = 0
    · rw [if_pos h1]
      rfl
    · rw [if_neg h1]
      rfl
  rw [NewScoreSetF_scores, hrow, MeanStdDevF_replicate sq cities.length q hn,
    List.map_replicate]
  congr 1
  congr 1
  show (if better = ScoreGoal.SMALLER
      then (((F.fin q).sub (F.fin q)).div
        (if ((cities.length : ℚ)) - 1 = 0 then F.nan else F.fin 0)).mul (F.fin (-1))
      else ((F.fin q).sub (F.fin q)).div
        (if ((cities.length : ℚ)) - 1 = 0 then F.nan else F.fin 0)) = F.nan
  rw [hval]
  rcases better <;> rfl

/-- C7 witness: a three-city constant axis stores an all-NaN row. -/
theorem C7_zero_variance_nan_witness :
    (NewScoreSetF exSq "/x" exCities3 ScoreGoal.SMALLER (fun _ => F.fin 7)).scores =
      [List.replicate exCities3.length F.nan] :=
  C7_zero_variance_nan exSq "/x" exCities3 ScoreGoal.SMALLER (fun _ => F.fin 7) 7
    (by simp [exCities3]) (fun c hc => rfl)

/-- C7 counterexample: two cities with identical raw value 5 produce the
stored row `[NaN, NaN]`, not the all-zero row the claim requires, and the
construction stores non-finite values. -/
theorem C7_zero_variance_counterexample :
    (NewScoreSetF exSq "/x" exCities2 ScoreGoal.BIGGER (fun _ => F.fin 5)).scores
      = [[F.nan, F.nan]] ∧
    (NewScoreSetF exSq "/x" exCities2 ScoreGoal.BIGGER (fun _ => F.fin 5)).scores
      ≠ [[F.fin 0, F.fin 0]] := by
  have h1 : (NewScoreSetF exSq "/x" exCities2 ScoreGoal.BIGGER (fun _ => F.fin 5)).scores
      = [[F.nan, F.nan]] := by
    simp [NewScoreSetF, MeanStdDevF, F.sum, F.add, F.sub, F.mul, F.div, F.neg,
      F.sqrtWith, exCities2, mkCity]
    norm_num [F.add, F.div, F.sub, F.neg, F.mul, F.sqrtWith]
  refine ⟨h1, ?_⟩
  rw [h1]
  simp

/-- C8 (amended): `NewScoreSet` performs no finiteness check and cannot
reject its input (it returns a ScoreSet unconditionally); a NaN extractor
value propagates through the mean and standard deviation into every entry of
the stored row. -/
theorem C8_nan_propagation (sq : ℚ → ℚ) (axis : String) (cities : List City)
    (better : ScoreGoal) (f : City → F)
    (hnan : ∃ c ∈ cities, f c = F.nan) :
    (NewScoreSetF sq axis cities better f).scores =
      [List.replicate cities.length F.nan] := by
  obtain ⟨c0, hc0, hfc0⟩ := hnan
  have hmem : F.nan ∈ cities.map f := by
    rw [← hfc0]
    exact List.mem_map_of_mem f hc0
  have hmean' : (F.sum (cities.map f)).div (F.fin ((cities.map f).length : ℚ)) = F.nan := by
    rw [F.sum_eq_nan_of_mem _ hmem, F.div_nan_left]
  have hmean : (MeanStdDevF sq (cities.map f)).1 = F.nan :=
    (MeanStdDevF_fst sq _).trans hmean'
  have hσ : (MeanStdDevF sq (cities.map f)).2 = F.nan := by
    rw [MeanStdDevF_snd]
    have hssmem : F.nan ∈ (cities.map f).map
        (fun v => (v.sub ((F.sum (cities.map f)).div (F.fin ((cities.map f).length : ℚ)))).mul
          (v.sub ((F.sum (cities.map f)).div (F.fin ((cities.map f).length : ℚ))))) := by
      refine List.mem_map.mpr ⟨F.nan, hmem, ?_⟩
      rw [hmean', F.sub_nan_left, F.mul_nan_left]
    rw [F.sum_eq_nan_of_mem _ hssmem, F.div_nan_left]
    rfl
  rw [NewScoreSetF_scores]
  have hlen : (cities.map f).length = cities.length := List.length_map cities f
  have hmap : (cities.map f).map (fun x =>
      let val := (x.sub (MeanStdDevF sq (cities.map f)).1).div
        (MeanStdDevF sq (cities.map f)).2
      if better = ScoreGoal.SMALLER then val.mul (F.fin (-1)) else val)
      = List.replicate cities.length F.nan := by
    rw [← hlen, ← List.map_const']
    refine List.map_congr_left (fun x hx => ?_)
    show (if better = ScoreGoal.SMALLER
        then ((x.sub (MeanStdDevF sq (cities.map f)).1).div
          (MeanStdDevF sq (cities.map f)).2).mul (F.fin (-1))
        else (x.sub (MeanStdDevF sq (cities.map f)).1).div
          (MeanStdDevF sq (cities.map f)).2) = F.nan
    have hval : (x.sub (MeanStdDevF sq (cities.map f)).1).div
        (MeanStdDevF sq (cities.map f)).2 = F.nan := by
      rw [hmean, F.sub_nan_right, F.div_nan_left]
    rw [hval]
    rcases better <;> rfl
  rw [hmap]

/-- C8 witness: two cities, one NaN raw value, give an all-NaN stored row
with no error. -/
theorem C8_nan_propagation_witness :
    (NewScoreSetF exSq "/x" exCities2 ScoreGoal.SMALLER exNanF).scores =
      [List.replicate exCities2.length F.nan] :=
  C8_nan_propagation exSq "/x" exCities2 ScoreGoal.SMALLER exNanF
    ⟨mkCity "B", by simp [exCities2], by simp [exNanF, mkCity]⟩

/-- C8 counterexample: with a NaN extractor value on city B, `NewScoreSet`
returns a ScoreSet (its Go signature `*ScoreSet` admits no error) whose
stored row is `[NaN, NaN]`: the non-finite input is silently propagated, not
rejected. -/
theorem C8_nonfinite_counterexample :
    exNanF (mkCity "B") = F.nan ∧
    (NewScoreSetF exSq "/x" exCities2 ScoreGoal.BIGGER exNanF).scores = [[F.nan, F.nan]] := by
  constructor
  · simp [exNanF, mkCity]
  · simp [NewScoreSetF, MeanStdDevF, F.sum, F.add, F.sub, F.mul, F.div, F.neg,
      F.sqrtWith, exCities2, mkCity, exNanF]
